import Mathlib

/-!
Shallow embedding of `lib/ansible/plugins/filter/mathstuff.py` (Ansible math
jinja2 filters) and proofs about its claims.

Modelling conventions:
* Python exceptions are modelled by `Except PyErr`.  `AnsibleFilterError`
  carries its message; `TypeError` / `ValueError` / `KeyError` are the
  unwrapped builtin exceptions that the module lets escape.
* Python values relevant to the set-algebra and min/max filters are modelled
  by `PyVal` (ints, strings and lists; lists are the canonical unhashable
  value).  Floats and booleans are not needed by any claim and are omitted.
* A Python `set` has unspecified iteration order; we model it canonically as
  a first-occurrence-deduplicated list.  No theorem below relies on the
  order of a set-path result, only on its underlying finite set.
-/

set_option maxHeartbeats 1000000

namespace Mathstuff

/-- Python exceptions as observed by a caller of this module. -/
inductive PyErr where
  | filterError (msg : String)
  | typeError
  | valueError
  | zeroDivisionError
  deriving DecidableEq, Repr

/-- `True` exactly for the module's own uniform filter error
(`AnsibleFilterError`); builtin exceptions that escape unwrapped are not
filter errors. -/
def PyErr.isFilterError : PyErr → Bool
  | .filterError _ => true
  | _ => false

/-- Python values handled by the set-algebra and min/max filters: integers,
text strings, and lists (modelled with integer payloads — the canonical
unhashable value; no claim needs deeper nesting).  Structural equality
models Python `==` on these types. -/
inductive PyVal where
  | int : Int → PyVal
  | str : String → PyVal
  | list : List Int → PyVal
  deriving DecidableEq, Repr

/-- Python hashability of a value: ints and strings are hashable, lists are
not (`hash([])` raises `TypeError`). -/
def PyVal.hashable : PyVal → Bool
  | .int _ => true
  | .str _ => true
  | .list _ => false

/-- Kind of the container object passed to a set-algebra filter.  `isinstance(a,
collections.Hashable)` inspects the container type: tuples are hashable,
lists and sets are not. -/
inductive CKind where
  | pylist
  | pytuple
  | pyset
  deriving DecidableEq, Repr

/-- `isinstance(a, collections.Hashable)` on a container of this kind. -/
def CKind.hashable : CKind → Bool
  | .pytuple => true
  | _ => false

/-- A collection argument to a set-algebra filter: its elements in iteration
order together with the container kind the dispatch inspects. -/
structure PyColl where
  elems : List PyVal
  kind : CKind
  deriving DecidableEq, Repr

/-- Result of a set-algebra filter: either a Python `set` (iteration order
unspecified, modelled canonically) or an order-preserving list. -/
inductive SetRes where
  | pyset : List PyVal → SetRes
  | pylist : List PyVal → SetRes
  deriving DecidableEq, Repr

/-- Elements of a set-algebra result, in the modelled iteration order. -/
def SetRes.elems : SetRes → List PyVal
  | .pyset xs => xs
  | .pylist xs => xs

/-- Feeding a set-algebra result back into another filter call: a Python
`set` is an unhashable container, a list likewise. -/
def SetRes.toColl : SetRes → PyColl
  | .pyset xs => ⟨xs, .pyset⟩
  | .pylist xs => ⟨xs, .pylist⟩

/-- The underlying finite set of a set-algebra result. -/
def SetRes.toFinset (r : SetRes) : Finset PyVal := r.elems.toFinset

/-- First-occurrence deduplication: the loop `c = []; for x in a: if x not in
c: c.append(x)` from `unique`'s fallback path. -/
def pyDedup : List PyVal → List PyVal :=
  go []
where
  /-- `go c xs` continues the loop with accumulated output `c`. -/
  go (c : List PyVal) : List PyVal → List PyVal
  | [] => c
  | x :: xs => if x ∈ c then go c xs else go (c ++ [x]) xs

/-- `set(xs)`: raises `TypeError` when some element is unhashable, otherwise
builds the set (modelled canonically in first-occurrence order). -/
def buildSet (xs : List PyVal) : Except PyErr (List PyVal) :=
  if xs.all PyVal.hashable then .ok (pyDedup xs) else .error .typeError

/-- Python `+` on the two containers: defined for list+list and tuple+tuple,
`TypeError` otherwise (sets do not support `+`). -/
def pyConcat (a b : PyColl) : Except PyErr (List PyVal) :=
  if a.kind = b.kind ∧ a.kind ≠ .pyset then .ok (a.elems ++ b.elems)
  else .error .typeError

/-- `unique(a)` from mathstuff.py: set path when the container type is
hashable, otherwise the order-preserving fallback loop. -/
def unique (a : PyColl) : Except PyErr SetRes :=
  if a.kind.hashable then (buildSet a.elems).map .pyset
  else .ok (.pylist (pyDedup a.elems))

/-- `intersect(a, b)` from mathstuff.py. -/
def intersect (a b : PyColl) : Except PyErr SetRes :=
  if a.kind.hashable ∧ b.kind.hashable then do
    let sa ← buildSet a.elems
    let sb ← buildSet b.elems
    .ok (.pyset (sa.filter (fun x => decide (x ∈ sb))))
  else
    unique ⟨a.elems.filter (fun x => decide (x ∈ b.elems)), .pylist⟩

/-- `difference(a, b)` from mathstuff.py. -/
def difference (a b : PyColl) : Except PyErr SetRes :=
  if a.kind.hashable ∧ b.kind.hashable then do
    let sa ← buildSet a.elems
    let sb ← buildSet b.elems
    .ok (.pyset (sa.filter (fun x => decide (x ∉ sb))))
  else
    unique ⟨a.elems.filter (fun x => decide (x ∉ b.elems)), .pylist⟩

/-- `union(a, b)` from mathstuff.py. -/
def union (a b : PyColl) : Except PyErr SetRes :=
  if a.kind.hashable ∧ b.kind.hashable then do
    let sa ← buildSet a.elems
    let sb ← buildSet b.elems
    .ok (.pyset (sa ++ sb.filter (fun x => decide (x ∉ sa))))
  else do
    let cs ← pyConcat a b
    unique ⟨cs, a.kind⟩

/-- `symmetric_difference(a, b)` from mathstuff.py: on the fallback path it
is literally `unique([x for x in union(a, b) if x not in intersect(a, b)])`. -/
def symmetric_difference (a b : PyColl) : Except PyErr SetRes :=
  if a.kind.hashable ∧ b.kind.hashable then do
    let sa ← buildSet a.elems
    let sb ← buildSet b.elems
    .ok (.pyset (sa.filter (fun x => decide (x ∉ sb)) ++ sb.filter (fun x => decide (x ∉ sa))))
  else do
    let u ← union a b
    let i ← intersect a b
    unique ⟨u.elems.filter (fun x => decide (x ∉ i.elems)), .pylist⟩

/-- The composition `difference(union(a, b), intersect(a, b))` from the spec's
algebraic identity, with the intermediate results fed back in as Python
objects. -/
def symDiffComposed (a b : PyColl) : Except PyErr SetRes := do
  let u ← union a b
  let i ← intersect a b
  difference u.toColl i.toColl

/-- Python `<` on lists of ints: first differing position decides, a strict
prefix is smaller. -/
def intListLt : List Int → List Int → Bool
  | [], [] => false
  | [], _ :: _ => true
  | _ :: _, [] => false
  | x :: xs, y :: ys => if x = y then intListLt xs ys else decide (x < y)

/-- Python `<` between two values: defined within one type, `TypeError`
across types (Python 3 semantics). -/
def pyLt : PyVal → PyVal → Except PyErr Bool
  | .int i, .int j => .ok (decide (i < j))
  | .str s, .str t => .ok (decide (s < t))
  | .list xs, .list ys => .ok (intListLt xs ys)
  | _, _ => .error .typeError

/-- The scan of builtin `min`: keep the best-so-far, replacing it whenever
`x < best`. -/
def pyMinGo (best : PyVal) : List PyVal → Except PyErr PyVal
  | [] => .ok best
  | x :: xs => do
    let lt ← pyLt x best
    pyMinGo (if lt then x else best) xs

/-- The scan of builtin `max`: keep the best-so-far, replacing it whenever
`best < x`. -/
def pyMaxGo (best : PyVal) : List PyVal → Except PyErr PyVal
  | [] => .ok best
  | x :: xs => do
    let gt ← pyLt best x
    pyMaxGo (if gt then x else best) xs

/-- `min(a)` from mathstuff.py: it calls builtin `min` unchanged (the module
installs no try/except), so an empty collection raises the builtin
`ValueError` and unorderable elements raise `TypeError`. -/
def min : List PyVal → Except PyErr PyVal
  | [] => .error .valueError
  | x :: xs => pyMinGo x xs

/-- `max(a)` from mathstuff.py: builtin `max` unchanged. -/
def max : List PyVal → Except PyErr PyVal
  | [] => .error .valueError
  | x :: xs => pyMaxGo x xs

/-- A Python scalar passed to the numeric filters and to haversine: a number
(int or float, modelled exactly as a rational), a text string, or `None`. -/
inductive HVal where
  | num : ℚ → HVal
  | str : String → HVal
  | pyNone : HVal
  deriving DecidableEq, Repr

/-- Numeric value of a run of decimal digits. -/
def digitsVal (cs : List Char) : ℕ :=
  cs.foldl (fun n c => 10 * n + (c.toNat - Char.toNat '0')) 0

/-- All characters are decimal digits. -/
def allDigits (cs : List Char) : Bool :=
  cs.all fun c => decide ('0' ≤ c) && decide (c ≤ '9')

/-- Split a character list at the first `'.'`. -/
def splitDot : List Char → List Char × Option (List Char)
  | [] => ([], none)
  | '.' :: r => ([], some r)
  | c :: r =>
    let p := splitDot r
    (c :: p.1, p.2)

/-- Python `float(s)` on a decimal string literal: optional sign, digits with
an optional fractional part, at least one digit (exponents and the special
values `inf`/`nan`, which no claim touches, are out of the model). -/
def parseFloat (s : String) : Option ℚ :=
  let p : ℚ × List Char :=
    match s.data with
    | '-' :: r => (-1, r)
    | '+' :: r => (1, r)
    | r => (1, r)
  let q := splitDot p.2
  match q.2 with
  | none =>
    if allDigits q.1 ∧ q.1 ≠ [] then some (p.1 * digitsVal q.1) else none
  | some frac =>
    if allDigits q.1 ∧ allDigits frac ∧ (q.1 ≠ [] ∨ frac ≠ []) then
      some (p.1 * ((digitsVal q.1 : ℚ) + (digitsVal frac : ℚ) / 10 ^ frac.length))
    else none

/-- Python `float(v)`: numbers pass through, strings are parsed
(`ValueError` on failure), `None` and other non-numbers raise `TypeError`. -/
def floatOf (v : HVal) : Except PyErr ℚ :=
  match v with
  | .num q => .ok q
  | .str s =>
    match parseFloat s with
    | some q => .ok q
    | none => .error .valueError
  | .pyNone => .error .typeError

/-- `math.log10(x)` / `math.log(x)`: `ValueError` (math domain error) for
`x ≤ 0`, `TypeError` for non-numbers; the value is modelled over ℝ. -/
noncomputable def mathLog10 (x : HVal) : Except PyErr ℝ :=
  match x with
  | .num q => if q ≤ 0 then .error .valueError else .ok (Real.log q / Real.log 10)
  | _ => .error .typeError

/-- `math.log(x, base)`: the domain of `x` is checked first, then the base;
`base = 1` divides by `log 1 = 0` and raises `ZeroDivisionError`. -/
noncomputable def mathLogBase (x base : HVal) : Except PyErr ℝ :=
  match x with
  | .num q =>
    if q ≤ 0 then .error .valueError
    else
      match base with
      | .num b =>
        if b ≤ 0 then .error .valueError
        else if b = 1 then .error .zeroDivisionError
        else .ok (Real.log q / Real.log b)
      | _ => .error .typeError
  | _ => .error .typeError

/-- `logarithm(x, base=math.e)` from mathstuff.py: dispatches on `base == 10`,
and wraps ONLY `TypeError` into the filter error — `ValueError` escapes. -/
noncomputable def logarithm (x base : HVal) : Except PyErr ℝ :=
  let r := if base = .num 10 then mathLog10 x else mathLogBase x base
  match r with
  | .error .typeError => .error (.filterError "log() can only be used on numbers")
  | r => r

/-- `math.sqrt(x)`: `ValueError` (math domain error) for `x < 0`, `TypeError`
for non-numbers. -/
noncomputable def mathSqrt (x : HVal) : Except PyErr ℝ :=
  match x with
  | .num q => if q < 0 then .error .valueError else .ok (Real.sqrt q)
  | _ => .error .typeError

/-- `math.pow(x, 1.0 / float(base))` from `inversepower`'s non-2 branch:
`float(base)` first, then the division (`ZeroDivisionError` on base 0), then
`math.pow` with its domain errors. -/
noncomputable def mathPowInv (x base : HVal) : Except PyErr ℝ :=
  match x with
  | .num q => do
    let b ← floatOf base
    if b = 0 then .error .zeroDivisionError
    else
      let e : ℚ := 1 / b
      if q < 0 ∧ e.den ≠ 1 then .error .valueError
      else if q = 0 ∧ e < 0 then .error .valueError
      else .ok ((q : ℝ) ^ (e : ℝ))
  | _ => .error .typeError

/-- `inversepower(x, base=2)` from mathstuff.py: square root for base 2,
general root otherwise; wraps BOTH `ValueError` and `TypeError` into the
filter error. -/
noncomputable def inversepower (x base : HVal) : Except PyErr ℝ :=
  let r := if base = .num 2 then mathSqrt x else mathPowInv x base
  match r with
  | .error .typeError => .error (.filterError "root() can only be used on numbers")
  | .error .valueError => .error (.filterError "root() can only be used on numbers")
  | r => r

/-- A mapping passed to `haversine`: presence of each required key, plus the
value found under `unit` (absent modelled as `none`; `coordinates.get` turns
an absent key into Python `None`). -/
structure HDict where
  lat1 : Option HVal
  lon1 : Option HVal
  lat2 : Option HVal
  lon2 : Option HVal
  unit : Option HVal
  deriving DecidableEq, Repr

/-- The `coordinates` argument of `haversine`: a list, a dict, or any other
Python object. -/
inductive HavCoords where
  | list : List HVal → HavCoords
  | dict : HDict → HavCoords
  | other : HavCoords
  deriving DecidableEq, Repr

/-- The value `haversine` returns: a single rounded scalar when a unit was
chosen, or the `{'km': _, 'm': _}` mapping. -/
inductive HavResult where
  | scalar : ℝ → HavResult
  | both : ℝ → ℝ → HavResult

/-- One coordinate conversion inside haversine's `try: float(...) except
ValueError` block: only `ValueError` is wrapped into the filter error;
`float(None)` raises `TypeError`, which escapes unwrapped. -/
def floatCoord (v : HVal) : Except PyErr ℚ :=
  match floatOf v with
  | .error .valueError => .error (.filterError "haversine() only accepts floats")
  | r => r

/-- The `assert unit in ['m', 'km']` guard: skipped when no unit is in scope
or the unit is `None`. -/
def checkUnit : Option HVal → Except PyErr Unit
  | none => .ok ()
  | some u =>
    if u = .pyNone then .ok ()
    else if u = .str "m" ∨ u = .str "km" then .ok ()
    else .error (.filterError "haversine() unit must be m or km if defined")

/-- `math.radians`. -/
noncomputable def radians (x : ℝ) : ℝ := x * (Real.pi / 180)

/-- The haversine central angle `c = 2 * asin(sqrt(a))` computed by the
function body (the floating-point arithmetic is modelled over ℝ, where the
`except Exception` guard around it can never fire). -/
noncomputable def havAngle (lat1 lon1 lat2 lon2 : ℚ) : ℝ :=
  let dlat := radians ((lat2 : ℝ) - (lat1 : ℝ))
  let dlon := radians ((lon2 : ℝ) - (lon1 : ℝ))
  let l1 := radians (lat1 : ℝ)
  let l2 := radians (lat2 : ℝ)
  let a := Real.sin (dlat / 2) ^ 2 + Real.cos l1 * Real.cos l2 * Real.sin (dlon / 2) ^ 2
  2 * Real.arcsin (Real.sqrt a)

/-- `round(x, 2)` (Python's half-to-even at the third decimal differs from
`round`'s half-up only on exact midpoints, which no claim exercises). -/
noncomputable def round2 (x : ℝ) : ℝ := (round (x * 100) : ℤ) / 100

/-- The `diameter` dict of haversine: `{'m': 7917.5, 'km': 12742}`. -/
noncomputable def diameter : HVal → ℝ
  | .str "m" => 7917.5
  | .str "km" => 12742
  | _ => 0

/-- The body of `haversine` after argument destructuring: the four float
conversions (in order), the unit assert, the formula, and the final
unit-or-mapping branch. -/
noncomputable def havTail (v1 v2 v3 v4 : HVal) (unit : Option HVal) : Except PyErr HavResult := do
  let lat1 ← floatCoord v1
  let lon1 ← floatCoord v2
  let lat2 ← floatCoord v3
  let lon2 ← floatCoord v4
  checkUnit unit
  let c := havAngle lat1 lon1 lat2 lon2
  match unit with
  | some u =>
    if u = .pyNone then .ok (.both (round2 (12742 / 2 * c)) (round2 (7917.5 / 2 * c)))
    else .ok (.scalar (round2 (diameter u / 2 * c)))
  | none => .ok (.both (round2 (12742 / 2 * c)) (round2 (7917.5 / 2 * c)))

/-- `haversine(coordinates)` from mathstuff.py. -/
noncomputable def haversine : HavCoords → Except PyErr HavResult
  | .list [a, b, c, d] => havTail a b c d none
  | .list [a, b, c, d, u] => havTail a b c d (some u)
  | .list _ =>
    .error (.filterError
      "haversine() supplied list should contain 4 elements [lat1, lon1, lat2, lon2]")
  | .dict d =>
    match d.lat1, d.lon1, d.lat2, d.lon2 with
    | some a, some b, some c, some e => havTail a b c e (some (d.unit.getD .pyNone))
    | _, _, _, _ =>
      .error (.filterError
        "haversine() supplied dicts must contain 4 keys (unit optional): lat1, lon1, lat2 and lon2")
  | .other =>
    .error (.filterError "haversine() only accepts a list or dict of coordinates.")

/-- Spec-side: the first exception among the float conversions of the listed
coordinate values, in conversion order. -/
def firstFloatErr : List HVal → Option PyErr
  | [] => none
  | v :: vs =>
    match floatOf v with
    | .error e => some e
    | .ok _ => firstFloatErr vs

/-- Spec-side: a supplied unit value that fails the `m`/`km` assert (`None`
counts as no unit). -/
def badUnit : Option HVal → Bool
  | none => false
  | some u =>
    if u = .pyNone then false
    else if u = .str "m" ∨ u = .str "km" then false
    else true

/-- Spec-side description of when `haversine`'s post-destructuring body
raises the filter error: the first failing float conversion fails with
`ValueError`, or all conversions pass and a bad unit was supplied.  A first
failure by `TypeError` is NOT a filter error. -/
def coordsFilterSpec (vs : List HVal) (u : Option HVal) : Bool :=
  match firstFloatErr vs with
  | some .valueError => true
  | some _ => false
  | none => badUnit u

/-- Spec-side description (the amended claim C1) of when `haversine` raises
the uniform filter error. -/
def havFilterSpec : HavCoords → Bool
  | .other => true
  | .list [a, b, c, d] => coordsFilterSpec [a, b, c, d] none
  | .list [a, b, c, d, u] => coordsFilterSpec [a, b, c, d] (some u)
  | .list _ => true
  | .dict d =>
    match d.lat1, d.lon1, d.lat2, d.lon2 with
    | some a, some b, some c, some e =>
      coordsFilterSpec [a, b, c, e] (some (d.unit.getD .pyNone))
    | _, _, _, _ => true

/-- Whether a call outcome is the module's uniform filter error. -/
def isFilterErrorResult {α : Type} : Except PyErr α → Bool
  | .error (.filterError _) => true
  | _ => false

/-- Python `str()` of a scalar, used to format error messages (numeric
rendering is canonical, which no claim distinguishes). -/
def HVal.pyStr : HVal → String
  | .num q => toString q
  | .str s => s
  | .pyNone => "None"

/-- `human_readable(size, isbits=False, unit=None)` from mathstuff.py.  The
delegated `basic.bytes_to_human` lives outside this module, so it is taken
as an explicit argument `impl`; the wrapper's own code catches EVERY
exception and re-raises the filter error naming the input. -/
def human_readable (impl : HVal → Bool → Option String → Except PyErr String)
    (size : HVal) (isbits : Bool) (unit : Option String) : Except PyErr String :=
  match impl size isbits unit with
  | .ok s => .ok s
  | .error _ =>
    .error (.filterError ("human_readable() can't interpret following string: " ++ size.pyStr))

/-- `human_to_bytes(size, default_unit=None, isbits=False)` from mathstuff.py,
with the delegated `basic.human_to_bytes` as explicit argument `impl`. -/
def human_to_bytes (impl : HVal → Option String → Bool → Except PyErr Int)
    (size : HVal) (default_unit : Option String) (isbits : Bool) : Except PyErr Int :=
  match impl size default_unit isbits with
  | .ok n => .ok n
  | .error _ =>
    .error (.filterError ("human_to_bytes() can't interpret following string: " ++ size.pyStr))

/-- A scalar record-field value for `rekey_on_member` (no claim needs nested
record values). -/
inductive RBase where
  | int : Int → RBase
  | str : String → RBase
  deriving DecidableEq, Repr

/-- Python `str()` of a field value, used in the duplicate-key message. -/
def RBase.pyStr : RBase → String
  | .int i => toString i
  | .str s => s

/-- An element of the collection handed to `rekey_on_member`: either a record
(a Python dict from field name to value, in insertion order) or some
non-mapping value. -/
inductive RItem where
  | dict : List (String × RBase) → RItem
  | scalar : RBase → RItem
  deriving DecidableEq, Repr

/-- First-match association lookup, the model of Python dict indexing (dicts
built by this module never carry duplicate keys). -/
def alookup {α β : Type} [DecidableEq α] (k : α) : List (α × β) → Option β
  | [] => none
  | p :: rest => if p.1 = k then some p.2 else alookup k rest

/-- Python dict assignment `d[k] = v`: overwrite in place when the key is
present, append otherwise (insertion order preserved). -/
def dictSet {α β : Type} [DecidableEq α] (d : List (α × β)) (k : α) (v : β) : List (α × β) :=
  if (alookup k d).isSome then d.map (fun p => if p.1 = k then (k, v) else p)
  else d ++ [(k, v)]

/-- Python truthiness of `new_obj.get(key_elem, None)`: `None` and the empty
dict are falsy, a non-empty dict is truthy. -/
def rtruthy : Option RItem → Bool
  | none => false
  | some (.dict []) => false
  | some (.dict (_ :: _)) => true
  | some (.scalar (.int i)) => decide (i ≠ 0)
  | some (.scalar (.str s)) => decide (s ≠ "")

/-- The `data` argument of `rekey_on_member`: a mapping of records (iterated
over its VALUES), a sequence of records, a text or byte string, or any other
non-iterable value. -/
inductive RekeyData where
  | mapping : List (String × RItem) → RekeyData
  | pylist : List RItem → RekeyData
  | pystr : String → RekeyData
  | pybytes : String → RekeyData
  | other : RekeyData
  deriving DecidableEq, Repr

/-- The `for item in iterate_over` loop of `rekey_on_member`, with `new_obj`
accumulated in `acc`. -/
def rekeyLoop (dup : String) (key : String) :
    List RItem → List (RBase × RItem) → Except PyErr (List (RBase × RItem))
  | [], acc => .ok acc
  | item :: rest, acc =>
    match item with
    | .scalar _ => .error (.filterError "List item is not a valid dict")
    | .dict fields =>
      match alookup key fields with
      | none => .error (.filterError ("Key " ++ key ++ " was not found"))
      | some kv =>
        if rtruthy (alookup kv acc) then
          if dup = "error" then
            .error (.filterError
              ("Key " ++ kv.pyStr ++ " is not unique, cannot correctly turn into dict"))
          else rekeyLoop dup key rest (dictSet acc kv item)
        else rekeyLoop dup key rest (dictSet acc kv item)

/-- `rekey_on_member(data, key, duplicates='error')` from mathstuff.py. -/
def rekey_on_member (data : RekeyData) (key : String) (duplicates : String := "error") :
    Except PyErr (List (RBase × RItem)) :=
  if duplicates ≠ "error" ∧ duplicates ≠ "overwrite" then
    .error (.filterError
      ("duplicates parameter to rekey_on_member has unknown value: " ++ duplicates))
  else
    match data with
    | .mapping m => rekeyLoop duplicates key (m.map Prod.snd) []
    | .pylist items => rekeyLoop duplicates key items []
    | .pystr _ => .error (.filterError "Type is not a valid list, set, or dict")
    | .pybytes _ => .error (.filterError "Type is not a valid list, set, or dict")
    | .other => .error (.filterError "Type is not a valid list, set, or dict")

/-- The derived key `item[key]` of an element, `none` for non-records. -/
def derivedKey (key : String) : RItem → Option RBase
  | .dict fs => alookup key fs
  | .scalar _ => none

/-- The first derived key that repeats, scanning the items in iteration
order with the set `seen` of keys already taken (the spec-side description
of the first rekey collision). -/
def firstDupKey (key : String) : List RItem → List RBase → Option RBase
  | [], _ => none
  | it :: rest, seen =>
    match derivedKey key it with
    | some kv => if kv ∈ seen then some kv else firstDupKey key rest (kv :: seen)
    | none => none

/-- The last record in iteration order whose derived key is `k` (the
spec-side description of last-write-wins). -/
def lastRekeyed (key : String) (k : RBase) (items : List RItem) : Option RItem :=
  (items.filter fun it => decide (derivedKey key it = some k)).getLast?

/-! ### Helper lemmas -/

theorem alookup_isSome_iff {α β : Type} [DecidableEq α] (k : α) (d : List (α × β)) :
    (alookup k d).isSome = true ↔ k ∈ d.map Prod.fst := by
  induction d with
  | nil => simp [alookup]
  | cons p rest ih =>
    by_cases h : p.1 = k
    · subst h
      simp [alookup]
    · rw [show alookup k (p :: rest) = alookup k rest from by simp [alookup, h]]
      rw [ih]
      simp only [List.map_cons, List.mem_cons]
      constructor
      · exact Or.inr
      · rintro (hc | hm)
        · exact absurd hc.symm h
        · exact hm

theorem alookup_mem {α β : Type} [DecidableEq α] {k : α} {v : β} {d : List (α × β)}
    (h : alookup k d = some v) : (k, v) ∈ d := by
  induction d with
  | nil => simp [alookup] at h
  | cons p rest ih =>
    by_cases hp : p.1 = k
    · have h2 : some p.2 = some v := by rw [← h]; simp [alookup, hp]
      obtain rfl : p.2 = v := Option.some.inj h2
      refine List.mem_cons.mpr (Or.inl ?_)
      rw [← hp]
    · simp only [alookup, hp, if_neg, not_false_iff] at h
      exact List.mem_cons_of_mem _ (ih h)

theorem alookup_append {α β : Type} [DecidableEq α] (k : α) (d d' : List (α × β)) :
    alookup k (d ++ d') =
      match alookup k d with
      | some v => some v
      | none => alookup k d' := by
  induction d with
  | nil => simp [alookup]
  | cons p rest ih =>
    by_cases h : p.1 = k <;> simp [alookup, h, ih]

theorem alookup_map_replace {α β : Type} [DecidableEq α] (d : List (α × β)) (k' : α) (v : β)
    (k : α) (hne : k' ≠ k) :
    alookup k (d.map fun p => if p.1 = k' then (k', v) else p) = alookup k d := by
  induction d with
  | nil => rfl
  | cons p rest ih =>
    by_cases hp : p.1 = k'
    · have hpk : ¬ p.1 = k := by rw [hp]; exact hne
      simp only [List.map_cons, if_pos hp, alookup, if_neg hne, if_neg hpk]
      exact ih
    · simp only [List.map_cons, if_neg hp, alookup]
      by_cases hk : p.1 = k
      · rw [if_pos hk, if_pos hk]
      · rw [if_neg hk, if_neg hk]
        exact ih

theorem alookup_map_replace_hit {α β : Type} [DecidableEq α] (d : List (α × β)) (k : α) (v : β)
    (hp : (alookup k d).isSome = true) :
    alookup k (d.map fun p => if p.1 = k then (k, v) else p) = some v := by
  induction d with
  | nil => simp [alookup] at hp
  | cons p rest ih =>
    by_cases h : p.1 = k
    · simp [alookup, h]
    · simp only [alookup, h, if_neg, not_false_iff] at hp
      simp [alookup, h, ih hp]

theorem alookup_dictSet {α β : Type} [DecidableEq α] (d : List (α × β)) (k' : α) (v : β)
    (k : α) :
    alookup k (dictSet d k' v) = if k' = k then some v else alookup k d := by
  unfold dictSet
  by_cases hp : (alookup k' d).isSome = true
  · rw [if_pos hp]
    by_cases h : k' = k
    · subst h
      rw [if_pos rfl, alookup_map_replace_hit d k' v hp]
    · rw [if_neg h, alookup_map_replace d k' v k h]
  · rw [if_neg hp, alookup_append]
    by_cases h : k' = k
    · subst h
      have : alookup k' d = none := by
        cases ha : alookup k' d with
        | none => rfl
        | some w => exact absurd (by rw [ha]; rfl) hp
      rw [this, if_pos rfl]
      simp [alookup]
    · rw [if_neg h]
      cases ha : alookup k d with
      | none => simp [alookup, h]
      | some w => rfl

theorem dictSet_keys {α β : Type} [DecidableEq α] (d : List (α × β)) (k : α) (v : β) :
    (dictSet d k v).map Prod.fst =
      if (alookup k d).isSome = true then d.map Prod.fst else d.map Prod.fst ++ [k] := by
  unfold dictSet
  by_cases hp : (alookup k d).isSome = true
  · rw [if_pos hp, if_pos hp, List.map_map]
    apply List.map_congr_left
    intro p _
    by_cases h : p.1 = k <;> simp [h]
  · rw [if_neg hp, if_neg hp]
    simp

theorem dictSet_values {α β : Type} [DecidableEq α] (d : List (α × β)) (k : α) (v : β)
    (q : β → Prop) (hd : ∀ p ∈ d, q p.2) (hv : q v) :
    ∀ p ∈ dictSet d k v, q p.2 := by
  intro p hp
  unfold dictSet at hp
  by_cases hs : (alookup k d).isSome = true
  · rw [if_pos hs] at hp
    obtain ⟨p', hp', he⟩ := List.mem_map.mp hp
    by_cases h : p'.1 = k
    · rw [if_pos h] at he
      exact he ▸ hv
    · rw [if_neg h] at he
      exact he ▸ hd p' hp'
  · rw [if_neg hs] at hp
    rcases List.mem_append.mp hp with hp | hp
    · exact hd p hp
    · rcases List.mem_singleton.mp hp with rfl
      exact hv

theorem rtruthy_alookup (acc : List (RBase × RItem)) (kv : RBase)
    (hacc : ∀ p ∈ acc, rtruthy (some p.2) = true) :
    rtruthy (alookup kv acc) = true ↔ kv ∈ acc.map Prod.fst := by
  cases h : alookup kv acc with
  | none =>
    constructor
    · intro hf
      exact absurd hf (by simp [rtruthy])
    · intro hm
      have := (alookup_isSome_iff kv acc).mpr hm
      rw [h] at this
      simp at this
  | some v =>
    constructor
    · intro _
      exact (alookup_isSome_iff kv acc).mp (by rw [h]; rfl)
    · intro _
      exact hacc (kv, v) (alookup_mem h)

theorem firstDupKey_congr (key : String) (items : List RItem) (s₁ s₂ : List RBase)
    (h : ∀ x, x ∈ s₁ ↔ x ∈ s₂) :
    firstDupKey key items s₁ = firstDupKey key items s₂ := by
  induction items generalizing s₁ s₂ with
  | nil => rfl
  | cons it rest ih =>
    unfold firstDupKey
    cases derivedKey key it with
    | none => rfl
    | some kv =>
      dsimp only
      by_cases hm : kv ∈ s₁
      · rw [if_pos hm, if_pos ((h kv).mp hm)]
      · rw [if_neg hm, if_neg (fun hc => hm ((h kv).mpr hc))]
        exact ih _ _ (fun x => by simp [h x])

theorem getLast?_cons {α : Type} (a : α) (l : List α) :
    (a :: l).getLast? = some ((l.getLast?).getD a) := by
  induction l generalizing a with
  | nil => rfl
  | cons b m ih =>
    rw [List.getLast?_cons_cons, ih b]
    rfl

theorem pyMinGo_int (l : List Int) (b : Int) :
    pyMinGo (.int b) (l.map PyVal.int) = .ok (.int (l.foldl Min.min b)) := by
  induction l generalizing b with
  | nil => rfl
  | cons x xs ih =>
    simp only [List.map_cons, pyMinGo, pyLt, List.foldl_cons, Bind.bind, Except.bind]
    by_cases h : x < b
    · have hm : Min.min b x = x := min_eq_right (le_of_lt h)
      simp [h, hm, ih]
    · have hm : Min.min b x = b := min_eq_left (by omega)
      simp [h, hm, ih]

theorem pyMaxGo_int (l : List Int) (b : Int) :
    pyMaxGo (.int b) (l.map PyVal.int) = .ok (.int (l.foldl Max.max b)) := by
  induction l generalizing b with
  | nil => rfl
  | cons x xs ih =>
    simp only [List.map_cons, pyMaxGo, pyLt, List.foldl_cons, Bind.bind, Except.bind]
    by_cases h : b < x
    · have hm : Max.max b x = x := max_eq_right (le_of_lt h)
      simp [h, hm, ih]
    · have hm : Max.max b x = b := max_eq_left (by omega)
      simp [h, hm, ih]

theorem foldl_min_spec (l : List Int) (b : Int) :
    l.foldl Min.min b ≤ b ∧ (l.foldl Min.min b = b ∨ l.foldl Min.min b ∈ l) ∧
      ∀ y ∈ l, l.foldl Min.min b ≤ y := by
  induction l generalizing b with
  | nil => simp
  | cons x xs ih =>
    obtain ⟨h1, h2, h3⟩ := ih (Min.min b x)
    refine ⟨le_trans h1 (min_le_left _ _), ?_, ?_⟩
    · rcases h2 with h2 | h2
      · rcases min_choice b x with hc | hc
        · exact Or.inl (by rw [List.foldl_cons, h2, hc])
        · refine Or.inr ?_
          rw [List.foldl_cons, h2, hc]
          exact List.mem_cons_self x xs
      · refine Or.inr ?_
        rw [List.foldl_cons]
        exact List.mem_cons_of_mem x h2
    · intro y hy
      rcases List.mem_cons.mp hy with rfl | hy
      · exact le_trans h1 (min_le_right _ _)
      · exact h3 y hy

theorem foldl_max_spec (l : List Int) (b : Int) :
    b ≤ l.foldl Max.max b ∧ (l.foldl Max.max b = b ∨ l.foldl Max.max b ∈ l) ∧
      ∀ y ∈ l, y ≤ l.foldl Max.max b := by
  induction l generalizing b with
  | nil => simp
  | cons x xs ih =>
    obtain ⟨h1, h2, h3⟩ := ih (Max.max b x)
    refine ⟨le_trans (le_max_left _ _) h1, ?_, ?_⟩
    · rcases h2 with h2 | h2
      · rcases max_choice b x with hc | hc
        · exact Or.inl (by rw [List.foldl_cons, h2, hc])
        · refine Or.inr ?_
          rw [List.foldl_cons, h2, hc]
          exact List.mem_cons_self x xs
      · refine Or.inr ?_
        rw [List.foldl_cons]
        exact List.mem_cons_of_mem x h2
    · intro y hy
      rcases List.mem_cons.mp hy with rfl | hy
      · exact le_trans (le_max_right _ _) h1
      · exact h3 y hy

theorem pyDedup_eq_go (xs : List PyVal) : pyDedup xs = pyDedup.go [] xs := rfl

theorem pyDedup_go_append (c : List PyVal) (xs ys : List PyVal) :
    pyDedup.go c (xs ++ ys) = pyDedup.go (pyDedup.go c xs) ys := by
  induction xs generalizing c with
  | nil => rfl
  | cons x xs ih =>
    simp only [List.cons_append, pyDedup.go]
    by_cases h : x ∈ c <;> simp [h, ih]

theorem pyDedup_go_spec (c xs : List PyVal) :
    ∃ ds, pyDedup.go c xs = c ++ ds ∧ ds.Sublist xs ∧ ∀ y ∈ ds, y ∉ c := by
  induction xs generalizing c with
  | nil => exact ⟨[], by simp [pyDedup.go], List.nil_sublist _, by simp⟩
  | cons x xs ih =>
    by_cases h : x ∈ c
    · obtain ⟨ds, h1, h2, h3⟩ := ih c
      exact ⟨ds, by simp [pyDedup.go, h, h1], h2.cons x, h3⟩
    · obtain ⟨ds, h1, h2, h3⟩ := ih (c ++ [x])
      refine ⟨x :: ds, ?_, h2.cons₂ x, ?_⟩
      · simp only [pyDedup.go, if_neg h, h1, List.append_assoc, List.singleton_append]
      · intro y hy
        rcases List.mem_cons.mp hy with rfl | hy
        · exact h
        · intro hc
          exact h3 y hy (List.mem_append.mpr (Or.inl hc))

theorem mem_pyDedup_go (c xs : List PyVal) (x : PyVal) :
    x ∈ pyDedup.go c xs ↔ x ∈ c ∨ x ∈ xs := by
  induction xs generalizing c with
  | nil => simp [pyDedup.go]
  | cons y ys ih =>
    simp only [pyDedup.go]
    by_cases h : y ∈ c
    · rw [if_pos h, ih, List.mem_cons]
      constructor
      · rintro (hc | hy)
        · exact Or.inl hc
        · exact Or.inr (Or.inr hy)
      · rintro (hc | rfl | hy)
        · exact Or.inl hc
        · exact Or.inl h
        · exact Or.inr hy
    · rw [if_neg h, ih, List.mem_append, List.mem_singleton, List.mem_cons]
      tauto

theorem pyDedup_go_nodup (c xs : List PyVal) (hc : c.Nodup) : (pyDedup.go c xs).Nodup := by
  induction xs generalizing c with
  | nil => exact hc
  | cons x xs ih =>
    simp only [pyDedup.go]
    by_cases h : x ∈ c
    · rw [if_pos h]
      exact ih c hc
    · rw [if_neg h]
      refine ih _ (List.nodup_append.mpr ⟨hc, List.nodup_singleton x, ?_⟩)
      intro a ha hb
      rw [List.mem_singleton] at hb
      subst hb
      exact h ha

theorem mem_pyDedup (xs : List PyVal) (x : PyVal) : x ∈ pyDedup xs ↔ x ∈ xs := by
  rw [pyDedup_eq_go, mem_pyDedup_go]
  simp

theorem pyDedup_sublist (xs : List PyVal) : (pyDedup xs).Sublist xs := by
  obtain ⟨ds, h1, h2, _⟩ := pyDedup_go_spec [] xs
  rw [pyDedup_eq_go, h1, List.nil_append]
  exact h2

theorem pyDedup_nodup (xs : List PyVal) : (pyDedup xs).Nodup :=
  pyDedup_go_nodup [] xs List.nodup_nil

theorem pyDedup_append (a b : List PyVal) :
    ∃ bs, pyDedup (a ++ b) = pyDedup a ++ bs ∧ bs.Sublist b := by
  rw [pyDedup_eq_go, pyDedup_go_append]
  obtain ⟨ds, h1, h2, _⟩ := pyDedup_go_spec (pyDedup.go [] a) b
  exact ⟨ds, by rw [h1, pyDedup_eq_go], h2⟩

theorem difference_set_colls (U I : List PyVal) :
    difference (SetRes.pyset U).toColl (SetRes.pyset I).toColl =
      .ok (.pylist (pyDedup (U.filter (fun x => decide (x ∉ I))))) := rfl

theorem rtruthy_dict_of_lookup {key : String} {fs : List (String × RBase)} {kv : RBase}
    (h : alookup key fs = some kv) : rtruthy (some (RItem.dict fs)) = true := by
  cases fs with
  | nil => simp [alookup] at h
  | cons p rest => rfl

theorem rekeyLoop_overwrite_lookup (key : String) (k : RBase) (items : List RItem)
    (acc : List (RBase × RItem))
    (hwf : ∀ it ∈ items, ∃ fs, it = RItem.dict fs ∧ (alookup key fs).isSome = true) :
    Except.map (fun d => alookup k d) (rekeyLoop "overwrite" key items acc) =
      .ok ((lastRekeyed key k items).elim (alookup k acc) some) := by
  induction items generalizing acc with
  | nil => rfl
  | cons it rest ih =>
    obtain ⟨fs, rfl, hsome⟩ := hwf _ (List.mem_cons_self _ _)
    obtain ⟨kv, hkv⟩ := Option.isSome_iff_exists.mp hsome
    have hrest : ∀ it ∈ rest, ∃ fs, it = RItem.dict fs ∧ (alookup key fs).isSome = true :=
      fun it h => hwf it (List.mem_cons_of_mem _ h)
    have hstep : rekeyLoop "overwrite" key (RItem.dict fs :: rest) acc =
        rekeyLoop "overwrite" key rest (dictSet acc kv (RItem.dict fs)) := by
      simp [rekeyLoop, hkv]
    rw [hstep, ih _ hrest]
    have hfilter : lastRekeyed key k (RItem.dict fs :: rest) =
        if kv = k then
          some (((lastRekeyed key k rest).getD (RItem.dict fs)))
        else lastRekeyed key k rest := by
      unfold lastRekeyed
      by_cases hk : kv = k
      · subst hk
        rw [if_pos rfl, List.filter_cons_of_pos (by simp [derivedKey, hkv]), getLast?_cons]
      · rw [if_neg hk, List.filter_cons_of_neg (by simp [derivedKey, hkv, hk])]
    rw [hfilter]
    by_cases hk : kv = k
    · subst hk
      rw [if_pos rfl, alookup_dictSet, if_pos rfl]
      cases lastRekeyed key kv rest <;> rfl
    · rw [if_neg hk, alookup_dictSet, if_neg hk]

theorem rekeyLoop_error_dup (key : String) (k : RBase) (items : List RItem)
    (acc : List (RBase × RItem))
    (hwf : ∀ it ∈ items, ∃ fs, it = RItem.dict fs ∧ (alookup key fs).isSome = true)
    (hacc : ∀ p ∈ acc, rtruthy (some p.2) = true)
    (hdup : firstDupKey key items (acc.map Prod.fst) = some k) :
    rekeyLoop "error" key items acc =
      .error (.filterError
        ("Key " ++ k.pyStr ++ " is not unique, cannot correctly turn into dict")) := by
  induction items generalizing acc with
  | nil => simp [firstDupKey] at hdup
  | cons it rest ih =>
    obtain ⟨fs, rfl, hsome⟩ := hwf _ (List.mem_cons_self _ _)
    obtain ⟨kv, hkv⟩ := Option.isSome_iff_exists.mp hsome
    have hrest : ∀ it ∈ rest, ∃ fs, it = RItem.dict fs ∧ (alookup key fs).isSome = true :=
      fun it h => hwf it (List.mem_cons_of_mem _ h)
    have hdk : derivedKey key (RItem.dict fs) = some kv := hkv
    unfold firstDupKey at hdup
    rw [hdk] at hdup
    dsimp only at hdup
    by_cases hm : kv ∈ acc.map Prod.fst
    · rw [if_pos hm] at hdup
      obtain rfl : kv = k := Option.some.inj hdup
      have htr : rtruthy (alookup kv acc) = true := (rtruthy_alookup acc kv hacc).mpr hm
      simp [rekeyLoop, hkv, htr]
    · rw [if_neg hm] at hdup
      have htr : rtruthy (alookup kv acc) = false :=
        Bool.not_eq_true _ |>.mp (fun h => hm ((rtruthy_alookup acc kv hacc).mp h))
      have hstep : rekeyLoop "error" key (RItem.dict fs :: rest) acc =
          rekeyLoop "error" key rest (dictSet acc kv (RItem.dict fs)) := by
        simp [rekeyLoop, hkv, htr]
      rw [hstep]
      have habsent : ¬ (alookup kv acc).isSome = true := by
        rw [alookup_isSome_iff]
        exact hm
      have hkeys : (dictSet acc kv (RItem.dict fs)).map Prod.fst =
          acc.map Prod.fst ++ [kv] := by
        rw [dictSet_keys, if_neg habsent]
      refine ih _ hrest ?_ ?_
      · exact dictSet_values acc kv (RItem.dict fs) (fun v => rtruthy (some v) = true)
          (fun p hp => hacc p hp) (rtruthy_dict_of_lookup hkv)
      · rw [hkeys, firstDupKey_congr key rest (acc.map Prod.fst ++ [kv]) (kv :: acc.map Prod.fst)
          (by intro x; simp [or_comm])]
        exact hdup

theorem rekeyLoop_overwrite_missing (key : String) (pre : List RItem)
    (fs : List (String × RBase)) (rest : List RItem) (acc : List (RBase × RItem))
    (hpre : ∀ it ∈ pre, ∃ gs, it = RItem.dict gs ∧ (alookup key gs).isSome = true)
    (hmiss : alookup key fs = none) :
    rekeyLoop "overwrite" key (pre ++ RItem.dict fs :: rest) acc =
      .error (.filterError ("Key " ++ key ++ " was not found")) := by
  induction pre generalizing acc with
  | nil => simp [rekeyLoop, hmiss]
  | cons it pre' ih =>
    obtain ⟨gs, rfl, hsome⟩ := hpre _ (List.mem_cons_self _ _)
    obtain ⟨kv, hkv⟩ := Option.isSome_iff_exists.mp hsome
    have hpre' : ∀ it ∈ pre', ∃ gs, it = RItem.dict gs ∧ (alookup key gs).isSome = true :=
      fun it h => hpre it (List.mem_cons_of_mem _ h)
    have hstep : rekeyLoop "overwrite" key ((RItem.dict gs :: pre') ++ RItem.dict fs :: rest) acc =
        rekeyLoop "overwrite" key (pre' ++ RItem.dict fs :: rest)
          (dictSet acc kv (RItem.dict gs)) := by
      simp [rekeyLoop, hkv]
    rw [hstep]
    exact ih _ hpre'

theorem rekeyLoop_error_missing (key : String) (pre : List RItem)
    (fs : List (String × RBase)) (rest : List RItem) (acc : List (RBase × RItem))
    (hpre : ∀ it ∈ pre, ∃ gs, it = RItem.dict gs ∧ (alookup key gs).isSome = true)
    (hmiss : alookup key fs = none)
    (hacc : ∀ p ∈ acc, rtruthy (some p.2) = true)
    (hnodup : firstDupKey key pre (acc.map Prod.fst) = none) :
    rekeyLoop "error" key (pre ++ RItem.dict fs :: rest) acc =
      .error (.filterError ("Key " ++ key ++ " was not found")) := by
  induction pre generalizing acc with
  | nil => simp [rekeyLoop, hmiss]
  | cons it pre' ih =>
    obtain ⟨gs, rfl, hsome⟩ := hpre _ (List.mem_cons_self _ _)
    obtain ⟨kv, hkv⟩ := Option.isSome_iff_exists.mp hsome
    have hpre' : ∀ it ∈ pre', ∃ gs, it = RItem.dict gs ∧ (alookup key gs).isSome = true :=
      fun it h => hpre it (List.mem_cons_of_mem _ h)
    have hdk : derivedKey key (RItem.dict gs) = some kv := hkv
    unfold firstDupKey at hnodup
    rw [hdk] at hnodup
    dsimp only at hnodup
    by_cases hm : kv ∈ acc.map Prod.fst
    · rw [if_pos hm] at hnodup
      cases hnodup
    · rw [if_neg hm] at hnodup
      have htr : rtruthy (alookup kv acc) = false :=
        Bool.not_eq_true _ |>.mp (fun h => hm ((rtruthy_alookup acc kv hacc).mp h))
      have hstep : rekeyLoop "error" key ((RItem.dict gs :: pre') ++ RItem.dict fs :: rest) acc =
          rekeyLoop "error" key (pre' ++ RItem.dict fs :: rest)
            (dictSet acc kv (RItem.dict gs)) := by
        simp [rekeyLoop, hkv, htr]
      rw [hstep]
      have habsent : ¬ (alookup kv acc).isSome = true := by
        rw [alookup_isSome_iff]
        exact hm
      refine ih _ hpre' ?_ ?_
      · exact dictSet_values acc kv (RItem.dict gs) (fun v => rtruthy (some v) = true)
          (fun p hp => hacc p hp) (rtruthy_dict_of_lookup hkv)
      · rw [dictSet_keys, if_neg habsent,
          firstDupKey_congr key pre' (acc.map Prod.fst ++ [kv]) (kv :: acc.map Prod.fst)
            (by intro x; simp [or_comm])]
        exact hnodup

/-! ### Claim theorems -/

/-- C2 counterexample: `min([])` raises the builtin `ValueError` unwrapped —
it is NOT the uniform filter error the claim promises. -/
theorem min_empty_unwrapped_valueError :
    Mathstuff.min [] = .error .valueError ∧ PyErr.valueError.isFilterError = false :=
  ⟨rfl, rfl⟩

/-- C2 (amended): `min`/`max` return the minimum/maximum element of a
collection of mutually orderable elements, but on an empty collection the
builtin `ValueError` propagates unwrapped, and on unorderable elements the
builtin `TypeError` propagates unwrapped — no uniform filter error is
raised. -/
theorem min_max_semantics :
    (∀ (x : Int) (xs : List Int),
        Mathstuff.min (PyVal.int x :: xs.map PyVal.int) = .ok (.int (xs.foldl Min.min x)) ∧
        (xs.foldl Min.min x = x ∨ xs.foldl Min.min x ∈ xs) ∧
        xs.foldl Min.min x ≤ x ∧ ∀ y ∈ xs, xs.foldl Min.min x ≤ y) ∧
    (∀ (x : Int) (xs : List Int),
        Mathstuff.max (PyVal.int x :: xs.map PyVal.int) = .ok (.int (xs.foldl Max.max x)) ∧
        (xs.foldl Max.max x = x ∨ xs.foldl Max.max x ∈ xs) ∧
        x ≤ xs.foldl Max.max x ∧ ∀ y ∈ xs, y ≤ xs.foldl Max.max x) ∧
    Mathstuff.min [] = .error .valueError ∧
    Mathstuff.max [] = .error .valueError ∧
    Mathstuff.min [.int 0, .str "a"] = .error .typeError ∧
    Mathstuff.max [.int 0, .str "a"] = .error .typeError := by
  refine ⟨?_, ?_, rfl, rfl, rfl, rfl⟩
  · intro x xs
    obtain ⟨h1, h2, h3⟩ := foldl_min_spec xs x
    exact ⟨pyMinGo_int xs x, h2, h1, h3⟩
  · intro x xs
    obtain ⟨h1, h2, h3⟩ := foldl_max_spec xs x
    exact ⟨pyMaxGo_int xs x, h2, h1, h3⟩

/-- C7: whenever the delegated byte/unit utility fails, `human_readable` and
`human_to_bytes` re-raise the uniform filter error carrying the original
input value, and no error they return is ever anything but a filter error. -/
theorem human_conversion_wraps_failures :
    (∀ (impl : HVal → Bool → Option String → Except PyErr String) size isbits unit e,
        impl size isbits unit = .error e →
        human_readable impl size isbits unit =
          .error (.filterError
            ("human_readable() can't interpret following string: " ++ size.pyStr))) ∧
    (∀ (impl : HVal → Option String → Bool → Except PyErr Int) size du isbits e,
        impl size du isbits = .error e →
        human_to_bytes impl size du isbits =
          .error (.filterError
            ("human_to_bytes() can't interpret following string: " ++ size.pyStr))) ∧
    (∀ (impl : HVal → Bool → Option String → Except PyErr String) size isbits unit e,
        human_readable impl size isbits unit = .error e → e.isFilterError = true) ∧
    (∀ (impl : HVal → Option String → Bool → Except PyErr Int) size du isbits e,
        human_to_bytes impl size du isbits = .error e → e.isFilterError = true) := by
  refine ⟨?_, ?_, ?_, ?_⟩
  · intro impl size isbits unit e h
    simp [human_readable, h]
  · intro impl size du isbits e h
    simp [human_to_bytes, h]
  · intro impl size isbits unit e h
    unfold human_readable at h
    rcases hr : impl size isbits unit with v | s <;> rw [hr] at h
    · cases h
      rfl
    · cases h
  · intro impl size du isbits e h
    unfold human_to_bytes at h
    rcases hr : impl size du isbits with v | n <;> rw [hr] at h
    · cases h
      rfl
    · cases h

/-- C7 witness: a utility that always fails is wrapped into the filter
error. -/
theorem human_conversion_wraps_failures_witness :
    human_readable (fun _ _ _ => .error .typeError) (.str "1.3 GGB") false none =
      .error (.filterError "human_readable() can't interpret following string: 1.3 GGB") :=
  human_conversion_wraps_failures.1 (fun _ _ _ => .error .typeError)
    (.str "1.3 GGB") false none .typeError rfl

/-- C9: `logarithm` wraps only `TypeError`; for every numeric `x ≤ 0` and any
base the math library's `ValueError` escapes unwrapped (and is not a filter
error), while `inversepower` wraps the analogous domain violation into the
filter error. -/
theorem logarithm_valueError_unwrapped :
    (∀ (q : ℚ) (base : HVal), q ≤ 0 → logarithm (.num q) base = .error .valueError) ∧
    PyErr.valueError.isFilterError = false ∧
    (∀ q : ℚ, q < 0 →
        inversepower (.num q) (.num 2) =
          .error (.filterError "root() can only be used on numbers")) := by
  refine ⟨?_, rfl, ?_⟩
  · intro q base h
    unfold logarithm
    by_cases hb : base = .num 10
    · simp [hb, mathLog10, h]
    · simp [hb, mathLogBase, h]
  · intro q h
    simp [inversepower, mathSqrt, h]

/-- C9 witness: `logarithm(-1)` (natural-log default base modelled as a
non-10 base) and `logarithm(0, 10)` raise the unwrapped `ValueError`;
`inversepower(-4, 2)` raises the wrapped filter error. -/
theorem logarithm_valueError_unwrapped_witness :
    logarithm (.num (-1)) (.num 10) = .error .valueError ∧
    inversepower (.num (-4)) (.num 2) =
      .error (.filterError "root() can only be used on numbers") :=
  ⟨logarithm_valueError_unwrapped.1 (-1) (.num 10) (by norm_num),
   logarithm_valueError_unwrapped.2.2 (-4) (by norm_num)⟩

/-- C10: `rekey_on_member` rejects text strings, byte strings and other
non-iterables with the uniform filter error even though strings are
iterable, and a mapping is iterated over its VALUES, not its keys. -/
theorem rekey_rejects_strings :
    (∀ (s : String) (key dup : String), dup = "error" ∨ dup = "overwrite" →
        rekey_on_member (.pystr s) key dup =
          .error (.filterError "Type is not a valid list, set, or dict") ∧
        rekey_on_member (.pybytes s) key dup =
          .error (.filterError "Type is not a valid list, set, or dict") ∧
        rekey_on_member .other key dup =
          .error (.filterError "Type is not a valid list, set, or dict")) ∧
    (∀ (m : List (String × RItem)) (key dup : String),
        rekey_on_member (.mapping m) key dup =
          rekey_on_member (.pylist (m.map Prod.snd)) key dup) ∧
    rekey_on_member (.mapping [("outer", .dict [("id", .int 7)])]) "id" "error" =
      .ok [(.int 7, .dict [("id", .int 7)])] := by
  refine ⟨?_, ?_, rfl⟩
  · intro s key dup hdup
    rcases hdup with rfl | rfl <;> exact ⟨rfl, rfl, rfl⟩
  · intro m key dup
    unfold rekey_on_member
    by_cases h : dup ≠ "error" ∧ dup ≠ "overwrite" <;> simp [h]

theorem floatOf_error_shape (v : HVal) (e : PyErr) (h : floatOf v = .error e) :
    e = .valueError ∨ e = .typeError := by
  cases v with
  | num q => simp [floatOf] at h
  | str s =>
    cases hp : parseFloat s <;> simp [floatOf, hp] at h
    exact Or.inl h.symm
  | pyNone =>
    simp [floatOf] at h
    exact Or.inr h.symm

theorem havTail_filter (v1 v2 v3 v4 : HVal) (u : Option HVal) :
    isFilterErrorResult (havTail v1 v2 v3 v4 u) = coordsFilterSpec [v1, v2, v3, v4] u := by
  cases h1 : floatOf v1 with
  | error e =>
    rcases floatOf_error_shape v1 e h1 with rfl | rfl <;>
      simp [havTail, coordsFilterSpec, firstFloatErr, floatCoord, h1,
        Bind.bind, Except.bind, isFilterErrorResult]
  | ok q1 =>
  cases h2 : floatOf v2 with
  | error e =>
    rcases floatOf_error_shape v2 e h2 with rfl | rfl <;>
      simp [havTail, coordsFilterSpec, firstFloatErr, floatCoord, h1, h2,
        Bind.bind, Except.bind, isFilterErrorResult]
  | ok q2 =>
  cases h3 : floatOf v3 with
  | error e =>
    rcases floatOf_error_shape v3 e h3 with rfl | rfl <;>
      simp [havTail, coordsFilterSpec, firstFloatErr, floatCoord, h1, h2, h3,
        Bind.bind, Except.bind, isFilterErrorResult]
  | ok q3 =>
  cases h4 : floatOf v4 with
  | error e =>
    rcases floatOf_error_shape v4 e h4 with rfl | rfl <;>
      simp [havTail, coordsFilterSpec, firstFloatErr, floatCoord, h1, h2, h3, h4,
        Bind.bind, Except.bind, isFilterErrorResult]
  | ok q4 =>
  cases u with
  | none =>
    simp [havTail, coordsFilterSpec, firstFloatErr, floatCoord, h1, h2, h3, h4,
      Bind.bind, Except.bind, isFilterErrorResult, checkUnit, badUnit]
  | some uv =>
    by_cases hn : uv = .pyNone
    · simp [havTail, coordsFilterSpec, firstFloatErr, floatCoord, h1, h2, h3, h4,
        Bind.bind, Except.bind, isFilterErrorResult, checkUnit, badUnit, hn]
    · by_cases hmk : uv = .str "m" ∨ uv = .str "km"
      · simp [havTail, coordsFilterSpec, firstFloatErr, floatCoord, h1, h2, h3, h4,
          Bind.bind, Except.bind, isFilterErrorResult, checkUnit, badUnit, hn, hmk]
      · simp [havTail, coordsFilterSpec, firstFloatErr, floatCoord, h1, h2, h3, h4,
          Bind.bind, Except.bind, isFilterErrorResult, checkUnit, badUnit, hn, hmk]

theorem havAngle_zero : havAngle 0 0 0 0 = 0 := by
  unfold havAngle radians
  norm_num

theorem round2_zero : round2 0 = 0 := by
  simp [round2]

/-- C4 counterexample: a tuple — a container of hashable TYPE — holding
unhashable list elements makes the set filters raise `TypeError` rather
than return any order-preserving result, because the dispatch tests the
container, not the elements. -/
theorem setops_dispatch_counterexample :
    unique ⟨[PyVal.list [1], PyVal.list [2]], .pytuple⟩ = .error .typeError ∧
    union ⟨[PyVal.list [1]], .pytuple⟩ ⟨[PyVal.list [2]], .pytuple⟩ = .error .typeError :=
  ⟨rfl, rfl⟩

/-- C4 (amended): the order-preserving fallback is selected by the CONTAINER
type being unhashable (e.g. a list), not by element hashability.  On list
containers: `unique` returns the input's elements in first-seen order with
duplicates removed, and `union(a,b)` returns all of `a`'s elements before
the remaining elements of `b`; a hashable container (tuple) with unhashable
elements raises `TypeError` instead. -/
theorem setops_order_preservation :
    (∀ a : List PyVal,
        ∃ ds, unique ⟨a, .pylist⟩ = .ok (.pylist ds) ∧ ds.Sublist a ∧ ds.Nodup ∧
          ∀ x, x ∈ ds ↔ x ∈ a) ∧
    (∀ a b : List PyVal,
        ∃ as bs, union ⟨a, .pylist⟩ ⟨b, .pylist⟩ = .ok (.pylist (as ++ bs)) ∧
          as.Sublist a ∧ (∀ x, x ∈ as ↔ x ∈ a) ∧ (∀ x ∈ bs, x ∈ b) ∧
          (as ++ bs).Nodup ∧ (∀ x, x ∈ as ++ bs ↔ x ∈ a ∨ x ∈ b) ∧
          (as ++ bs).Sublist (a ++ b)) ∧
    (∀ a : List PyVal, a.all PyVal.hashable = false →
        unique ⟨a, .pytuple⟩ = .error .typeError) := by
  refine ⟨?_, ?_, ?_⟩
  · intro a
    exact ⟨pyDedup a, rfl, pyDedup_sublist a, pyDedup_nodup a, mem_pyDedup a⟩
  · intro a b
    obtain ⟨bs, h1, h2⟩ := pyDedup_append a b
    refine ⟨pyDedup a, bs, ?_, pyDedup_sublist a, mem_pyDedup a, ?_, ?_, ?_, ?_⟩
    · show Except.ok (SetRes.pylist (pyDedup (a ++ b))) = _
      rw [h1]
    · intro x hx
      exact h2.subset hx
    · rw [← h1]
      exact pyDedup_nodup (a ++ b)
    · intro x
      rw [← h1, mem_pyDedup, List.mem_append]
    · rw [← h1]
      exact pyDedup_sublist (a ++ b)
  · intro a h
    simp [unique, buildSet, CKind.hashable, h, Except.map]

/-- C4 witness: the hashable-container clause applied to a concrete tuple of
lists. -/
theorem setops_order_preservation_witness :
    unique ⟨[PyVal.list [3]], .pytuple⟩ = .error .typeError :=
  setops_order_preservation.2.2 [PyVal.list [3]] rfl

/-- C5: for all collections `a`, `b`, `symmetric_difference(a,b)` agrees with
`difference(union(a,b), intersect(a,b))` as a set — including agreement of
the raised exception when the inputs make either side fail. -/
theorem symmetric_difference_algebraic_identity (a b : PyColl) :
    Except.map SetRes.toFinset (symmetric_difference a b) =
      Except.map SetRes.toFinset (symDiffComposed a b) := by
  obtain ⟨ea, ka⟩ := a
  obtain ⟨eb, kb⟩ := b
  cases ka <;> cases kb <;> try rfl
  by_cases hall : ea.all PyVal.hashable = true
  · by_cases hball : eb.all PyVal.hashable = true
    · have hu : union ⟨ea, .pytuple⟩ ⟨eb, .pytuple⟩ =
          .ok (.pyset (pyDedup ea ++ (pyDedup eb).filter (fun x => decide (x ∉ pyDedup ea)))) := by
        simp [union, buildSet, CKind.hashable, hall, hball, Bind.bind, Except.bind]
      have hi : intersect ⟨ea, .pytuple⟩ ⟨eb, .pytuple⟩ =
          .ok (.pyset ((pyDedup ea).filter (fun x => decide (x ∈ pyDedup eb)))) := by
        simp [intersect, buildSet, CKind.hashable, hall, hball, Bind.bind, Except.bind]
      have hs : symmetric_difference ⟨ea, .pytuple⟩ ⟨eb, .pytuple⟩ =
          .ok (.pyset ((pyDedup ea).filter (fun x => decide (x ∉ pyDedup eb)) ++
            (pyDedup eb).filter (fun x => decide (x ∉ pyDedup ea)))) := by
        simp [symmetric_difference, buildSet, CKind.hashable, hall, hball, Bind.bind, Except.bind]
      have hcomp : symDiffComposed ⟨ea, .pytuple⟩ ⟨eb, .pytuple⟩ =
          .ok (.pylist (pyDedup
            ((pyDedup ea ++ (pyDedup eb).filter (fun x => decide (x ∉ pyDedup ea))).filter
              (fun x => decide (x ∉ (pyDedup ea).filter (fun y => decide (y ∈ pyDedup eb))))))) := by
        simp [symDiffComposed, hu, hi, Bind.bind, Except.bind, difference_set_colls]
      rw [hs, hcomp]
      simp only [Except.map]
      congr 1
      apply Finset.ext
      intro x
      simp only [SetRes.toFinset, SetRes.elems, List.mem_toFinset, mem_pyDedup,
        List.mem_filter, List.mem_append, decide_eq_true_eq]
      tauto
    · simp [symmetric_difference, symDiffComposed, union, intersect, buildSet,
        CKind.hashable, hall, hball, Bind.bind, Except.bind]
  · simp [symmetric_difference, symDiffComposed, union, intersect, buildSet,
      CKind.hashable, hall, Bind.bind, Except.bind]

/-- C3: on colliding derived keys `rekey_on_member` with `duplicates='error'`
fails with the duplicate-key filter error at the first collision, and with
`duplicates='overwrite'` binds every derived key to the LAST record with
that key (last-write-wins); in particular the two-record example from the
spec behaves exactly as claimed. -/
theorem rekey_duplicates_policy :
    (∀ (items : List RItem) (key : String) (k : RBase),
        (∀ it ∈ items, ∃ fs, it = RItem.dict fs ∧ (alookup key fs).isSome = true) →
        Except.map (fun d => alookup k d) (rekey_on_member (.pylist items) key "overwrite") =
          .ok (lastRekeyed key k items)) ∧
    (∀ (items : List RItem) (key : String) (k : RBase),
        (∀ it ∈ items, ∃ fs, it = RItem.dict fs ∧ (alookup key fs).isSome = true) →
        firstDupKey key items [] = some k →
        rekey_on_member (.pylist items) key "error" =
          .error (.filterError
            ("Key " ++ k.pyStr ++ " is not unique, cannot correctly turn into dict"))) ∧
    rekey_on_member (.pylist [.dict [("id", .int 1), ("v", .str "a")],
                              .dict [("id", .int 1), ("v", .str "b")]]) "id" "overwrite" =
      .ok [(.int 1, .dict [("id", .int 1), ("v", .str "b")])] ∧
    rekey_on_member (.pylist [.dict [("id", .int 1), ("v", .str "a")],
                              .dict [("id", .int 1), ("v", .str "b")]]) "id" "error" =
      .error (.filterError "Key 1 is not unique, cannot correctly turn into dict") := by
  refine ⟨?_, ?_, rfl, rfl⟩
  · intro items key k hwf
    have h := rekeyLoop_overwrite_lookup key k items [] hwf
    have hr : rekey_on_member (.pylist items) key "overwrite" =
        rekeyLoop "overwrite" key items [] := rfl
    rw [hr, h]
    cases lastRekeyed key k items <;> rfl
  · intro items key k hwf hdup
    have hr : rekey_on_member (.pylist items) key "error" =
        rekeyLoop "error" key items [] := rfl
    rw [hr]
    exact rekeyLoop_error_dup key k items [] hwf (by intro p hp; cases hp) hdup

/-- C3 witness: both general parts applied to the spec's two-record
example. -/
theorem rekey_duplicates_policy_witness :
    Except.map (fun d => alookup (RBase.int 1) d)
        (rekey_on_member (.pylist [.dict [("id", .int 1), ("v", .str "a")],
                                   .dict [("id", .int 1), ("v", .str "b")]]) "id" "overwrite") =
      .ok (lastRekeyed "id" (.int 1) [.dict [("id", .int 1), ("v", .str "a")],
                                      .dict [("id", .int 1), ("v", .str "b")]]) ∧
    rekey_on_member (.pylist [.dict [("id", .int 1), ("v", .str "a")],
                              .dict [("id", .int 1), ("v", .str "b")]]) "id" "error" =
      .error (.filterError "Key 1 is not unique, cannot correctly turn into dict") := by
  constructor
  · refine rekey_duplicates_policy.1 _ "id" (.int 1) ?_
    intro it hit
    rcases List.mem_cons.mp hit with rfl | hit
    · exact ⟨[("id", .int 1), ("v", .str "a")], rfl, rfl⟩
    rcases List.mem_cons.mp hit with rfl | hit
    · exact ⟨[("id", .int 1), ("v", .str "b")], rfl, rfl⟩
    cases hit
  · refine rekey_duplicates_policy.2.1 _ "id" (.int 1) ?_ rfl
    intro it hit
    rcases List.mem_cons.mp hit with rfl | hit
    · exact ⟨[("id", .int 1), ("v", .str "a")], rfl, rfl⟩
    rcases List.mem_cons.mp hit with rfl | hit
    · exact ⟨[("id", .int 1), ("v", .str "b")], rfl, rfl⟩
    cases hit

/-- C8: `rekey_on_member` fails with the missing-key filter error when the
loop reaches a record that has no entry for the requested key (in both
duplicate modes), and `rekey_on_member([{'x': 1}], 'missing')` raises
exactly that error. -/
theorem rekey_missing_key :
    (∀ (key : String) (pre : List RItem) (fs : List (String × RBase)) (rest : List RItem),
        (∀ it ∈ pre, ∃ gs, it = RItem.dict gs ∧ (alookup key gs).isSome = true) →
        alookup key fs = none →
        rekey_on_member (.pylist (pre ++ RItem.dict fs :: rest)) key "overwrite" =
          .error (.filterError ("Key " ++ key ++ " was not found"))) ∧
    (∀ (key : String) (pre : List RItem) (fs : List (String × RBase)) (rest : List RItem),
        (∀ it ∈ pre, ∃ gs, it = RItem.dict gs ∧ (alookup key gs).isSome = true) →
        alookup key fs = none →
        firstDupKey key pre [] = none →
        rekey_on_member (.pylist (pre ++ RItem.dict fs :: rest)) key "error" =
          .error (.filterError ("Key " ++ key ++ " was not found"))) ∧
    rekey_on_member (.pylist [RItem.dict [("x", RBase.int 1)]]) "missing" "error" =
      .error (.filterError "Key missing was not found") := by
  refine ⟨?_, ?_, rfl⟩
  · intro key pre fs rest hpre hmiss
    have hr : rekey_on_member (.pylist (pre ++ RItem.dict fs :: rest)) key "overwrite" =
        rekeyLoop "overwrite" key (pre ++ RItem.dict fs :: rest) [] := rfl
    rw [hr]
    exact rekeyLoop_overwrite_missing key pre fs rest [] hpre hmiss
  · intro key pre fs rest hpre hmiss hnodup
    have hr : rekey_on_member (.pylist (pre ++ RItem.dict fs :: rest)) key "error" =
        rekeyLoop "error" key (pre ++ RItem.dict fs :: rest) [] := rfl
    rw [hr]
    exact rekeyLoop_error_missing key pre fs rest [] hpre hmiss (by intro p hp; cases hp) hnodup

/-- C8 witness: the general missing-key fact applied to the spec's
example. -/
theorem rekey_missing_key_witness :
    rekey_on_member (.pylist ([] ++ RItem.dict [("x", RBase.int 1)] :: [])) "missing" "error" =
      .error (.filterError "Key missing was not found") :=
  rekey_missing_key.2.1 "missing" [] [("x", RBase.int 1)] []
    (fun it hit => absurd hit (List.not_mem_nil it)) rfl rfl

/-- C10 witness: a concrete string input is rejected with the filter error. -/
theorem rekey_rejects_strings_witness :
    rekey_on_member (.pystr "abc") "id" "error" =
      .error (.filterError "Type is not a valid list, set, or dict") :=
  ((rekey_rejects_strings.1 "abc" "id" "error" (Or.inl rfl)).1)

/-- C1 counterexample: a value that is neither a list nor a mapping — none
of the claim's enumerated cases — still raises the filter error, and a
coordinate that cannot be converted to float but raises `TypeError`
(Python `None`) escapes unwrapped instead of raising the filter error. -/
theorem haversine_nonlist_nondict_rejected :
    haversine .other =
      .error (.filterError "haversine() only accepts a list or dict of coordinates.") ∧
    haversine (.list [.pyNone, .num 0, .num 0, .num 0]) = .error .typeError :=
  ⟨rfl, rfl⟩

/-- C1 (amended): `haversine` raises the uniform filter error exactly when:
the input is neither a list nor a mapping; or a list has length other than
4 or 5; or a mapping misses a required key; or the first failing coordinate
conversion fails with `ValueError` (an unparseable string — a conversion
failing with `TypeError`, e.g. on `None`, escapes unwrapped instead); or
all coordinates convert and a supplied unit is neither `None` nor
`'m'`/`'km'`. -/
theorem haversine_filter_error_characterization (c : HavCoords) :
    isFilterErrorResult (haversine c) = havFilterSpec c := by
  cases c with
  | other => rfl
  | list l =>
    rcases l with _ | ⟨a, _ | ⟨b, _ | ⟨c, _ | ⟨d, _ | ⟨u, _ | ⟨x, t⟩⟩⟩⟩⟩⟩
    · rfl
    · rfl
    · rfl
    · rfl
    · exact havTail_filter a b c d none
    · exact havTail_filter a b c d (some u)
    · rfl
  | dict d =>
    obtain ⟨l1, o1, l2, o2, un⟩ := d
    cases l1 <;> cases o1 <;> cases l2 <;> cases o2 <;>
      first
      | rfl
      | exact havTail_filter _ _ _ _ _

/-- C6: a valid supplied unit yields a single scalar rounded to 2 decimal
places in that unit; no unit yields the `{'km', 'm'}` mapping with each
entry independently rounded; and `haversine([0,0,0,0])` returns
`{'km': 0.0, 'm': 0.0}`. -/
theorem haversine_result_shape :
    (∀ (v1 v2 v3 v4 : HVal) (q1 q2 q3 q4 : ℚ) (u : HVal),
        floatOf v1 = .ok q1 → floatOf v2 = .ok q2 →
        floatOf v3 = .ok q3 → floatOf v4 = .ok q4 →
        (u = .str "m" ∨ u = .str "km") →
        haversine (.list [v1, v2, v3, v4, u]) =
          .ok (.scalar (round2 (diameter u / 2 * havAngle q1 q2 q3 q4)))) ∧
    (∀ (v1 v2 v3 v4 : HVal) (q1 q2 q3 q4 : ℚ),
        floatOf v1 = .ok q1 → floatOf v2 = .ok q2 →
        floatOf v3 = .ok q3 → floatOf v4 = .ok q4 →
        haversine (.list [v1, v2, v3, v4]) =
          .ok (.both (round2 (12742 / 2 * havAngle q1 q2 q3 q4))
                     (round2 (7917.5 / 2 * havAngle q1 q2 q3 q4)))) ∧
    haversine (.list [.num 0, .num 0, .num 0, .num 0]) = .ok (.both 0 0) := by
  refine ⟨?_, ?_, ?_⟩
  · intro v1 v2 v3 v4 q1 q2 q3 q4 u h1 h2 h3 h4 hu
    rcases hu with rfl | rfl <;>
      simp [haversine, havTail, floatCoord, h1, h2, h3, h4, checkUnit,
        Bind.bind, Except.bind]
  · intro v1 v2 v3 v4 q1 q2 q3 q4 h1 h2 h3 h4
    simp [haversine, havTail, floatCoord, h1, h2, h3, h4, checkUnit,
      Bind.bind, Except.bind]
  · have hz : haversine (.list [.num 0, .num 0, .num 0, .num 0]) =
        .ok (.both (round2 (12742 / 2 * havAngle 0 0 0 0))
                   (round2 (7917.5 / 2 * havAngle 0 0 0 0))) := by
      simp [haversine, havTail, floatCoord, floatOf, checkUnit, Bind.bind, Except.bind]
    rw [hz, havAngle_zero]
    norm_num [round2_zero]

/-- C6 witness: the scalar branch applied at the all-zero coordinates with
unit `km`. -/
theorem haversine_result_shape_witness :
    haversine (.list [.num 0, .num 0, .num 0, .num 0, .str "km"]) =
      .ok (.scalar (round2 (diameter (.str "km") / 2 * havAngle 0 0 0 0))) :=
  haversine_result_shape.1 _ _ _ _ 0 0 0 0 (.str "km") rfl rfl rfl rfl (Or.inr rfl)

end Mathstuff
